import Mathlib

/-!
Shallow embedding of `src/bot.py` (telegram-sentinel): the message-scoring
pipeline `process_message`, its helpers `find_trigger_keywords`,
`extract_monetary_values`, and the alert formatter/dispatcher
`report_suspicious_activity`.  The two NLP models are opaque oracles and are
passed as function parameters `String → String × ℚ` (label, confidence);
confidence scores are modelled as rationals.  Strings are sequences of code
points (`List Char`), matching Python 3 `str`; Python `str.lower()` is
modelled by `Char.toLower` (ASCII case folding — every keyword in the source
is ASCII, and non-letters are fixed by both).  Python's regex `\d` is
modelled by `Char.isDigit` (ASCII digits).
-/

/-- Python `str.lower()` on the underlying code-point list. -/
def pyLower (s : List Char) : List Char := s.map Char.toLower

/-- Python `str.lower()` at `String` level. -/
def pyLowerStr (s : String) : String := String.mk (pyLower s.toList)

/-- Python's substring operator `sub in s` on code-point lists. -/
def hasSubstr (sub : List Char) : List Char → Bool
  | [] => sub.isEmpty
  | c :: rest => sub.isPrefixOf (c :: rest) || hasSubstr sub rest

/-- The `suspicious_keywords` list from `src/bot.py` lines 30-34. -/
def suspicious_keywords : List String :=
  ["ICO", "pump and dump", "get rich quick", "phishing",
   "double your money", "high returns", "guaranteed profit",
   "crypto mining", "investment opportunity", "binary options", "no risk"]

/-- The `urgency_keywords` list from `src/bot.py` line 36. -/
def urgency_keywords : List String := ["act now", "limited time", "urgent", "only today"]

/-- Embeds `find_trigger_keywords(message, keywords)`:
the comprehension `[kw for kw in keywords if kw.lower() in message.lower()]`. -/
def find_trigger_keywords (message : String) (keywords : List String) : List String :=
  keywords.filter (fun kw => hasSubstr (pyLower kw.toList) (pyLower message.toList))

/-- Longest prefix of ASCII digits together with the remaining suffix
(the greedy `\d+` step of the regex). -/
def takeDigits : List Char → List Char × List Char
  | [] => ([], [])
  | c :: cs =>
    if c.isDigit then (c :: (takeDigits cs).1, (takeDigits cs).2)
    else ([], c :: cs)

/-- One attempt of the regex `\$\d+|\d+ USD|₹\d+|\d+ INR` anchored at the
head of the list: alternatives are tried in the pattern's order, `\d+` is
greedy (backtracking can never help here because each fixed tail starts with
a non-digit, so a shorter digit run is always followed by a digit).  `\$\d+`
succeeds exactly when the digit run after `$` is non-empty.  Returns the
matched prefix and the rest of the input. -/
def tryMatch : List Char → Option (List Char × List Char)
  | [] => none
  | c :: cs =>
    if c = '$' then
      if (takeDigits cs).1.isEmpty then none
      else some ('$' :: (takeDigits cs).1, (takeDigits cs).2)
    else if c.isDigit then
      if [' ', 'U', 'S', 'D'].isPrefixOf (takeDigits (c :: cs)).2 then
        some ((takeDigits (c :: cs)).1 ++ [' ', 'U', 'S', 'D'], ((takeDigits (c :: cs)).2).drop 4)
      else if [' ', 'I', 'N', 'R'].isPrefixOf (takeDigits (c :: cs)).2 then
        some ((takeDigits (c :: cs)).1 ++ [' ', 'I', 'N', 'R'], ((takeDigits (c :: cs)).2).drop 4)
      else none
    else if c = '₹' then
      if (takeDigits cs).1.isEmpty then none
      else some ('₹' :: (takeDigits cs).1, (takeDigits cs).2)
    else none

theorem takeDigits_append (l : List Char) : (takeDigits l).1 ++ (takeDigits l).2 = l := by
  induction l with
  | nil => simp [takeDigits]
  | cons c cs ih =>
    cases h : c.isDigit <;> simp [takeDigits, h, ih]

theorem takeDigits_all_digit (l : List Char) : ∀ c ∈ (takeDigits l).1, c.isDigit = true := by
  induction l with
  | nil => simp [takeDigits]
  | cons c cs ih =>
    cases h : c.isDigit with
    | false => simp [takeDigits, h]
    | true =>
      simp only [takeDigits, h, if_true, List.mem_cons]
      rintro x (rfl | hx)
      · exact h
      · exact ih x hx

theorem takeDigits_cons_digit {c : Char} (h : c.isDigit = true) (cs : List Char) :
    takeDigits (c :: cs) = (c :: (takeDigits cs).1, (takeDigits cs).2) := by
  simp [takeDigits, h]

/-- A prefix can be removed by `drop`ping its length. -/
theorem drop_of_isPrefixOf {p l : List Char} (h : p.isPrefixOf l = true) :
    p ++ l.drop p.length = l := by
  obtain ⟨t, ht⟩ := List.isPrefixOf_iff_prefix.mp h
  rw [← ht, List.drop_left]

/-- A successful `tryMatch` consumes a non-empty prefix of the input. -/
theorem tryMatch_append {s m r : List Char} (h : tryMatch s = some (m, r)) :
    m ++ r = s ∧ m ≠ [] := by
  match s with
  | [] => simp [tryMatch] at h
  | c :: cs =>
    simp only [tryMatch] at h
    split_ifs at h
    all_goals rw [Option.some.injEq, Prod.mk.injEq] at h
    all_goals obtain ⟨hm, hr⟩ := h
    all_goals subst hm hr
    all_goals refine ⟨?_, by simp⟩
    · rename_i hc hne
      subst hc
      simp [takeDigits_append]
    · rw [List.append_assoc, show (4 : ℕ) = ([' ', 'U', 'S', 'D'] : List Char).length from rfl,
        drop_of_isPrefixOf (by assumption)]
      exact takeDigits_append (c :: cs)
    · rw [List.append_assoc, show (4 : ℕ) = ([' ', 'I', 'N', 'R'] : List Char).length from rfl,
        drop_of_isPrefixOf (by assumption)]
      exact takeDigits_append (c :: cs)
    · rename_i hc hne
      subst hc
      simp [takeDigits_append]

/-- The scanning loop of `re.findall`: try a match at the current position;
on success continue after the match, otherwise advance one code point.
`fuel` is an upper bound on the number of iterations used only to make the
recursion structural; every iteration strictly shrinks the remaining input,
so `fuel = s.length` reproduces the unbounded loop (each lemma below carries
the `s.length ≤ fuel` side condition). -/
def extractAux : ℕ → List Char → List (List Char)
  | 0, _ => []
  | _ + 1, [] => []
  | fuel + 1, c :: cs =>
    match tryMatch (c :: cs) with
    | some (m, r) => m :: extractAux fuel r
    | none => extractAux fuel cs

/-- Embeds `extract_monetary_values(message)`, which is
`re.findall` of the pattern `\$\d+|\d+ USD|₹\d+|\d+ INR` over the text. -/
def extract_monetary_values (message : String) : List String :=
  (extractAux message.toList.length message.toList).map (fun l => String.mk l)

/-- The Signal Bundle: the five signal groups computed for one message. -/
structure SignalBundle where
  triggered_keywords : List String
  monetary_values : List String
  triggered_urgency : List String
  sentiment_label : String
  sentiment_score : ℚ
  classification_label : String
  classification_score : ℚ
deriving Repr, DecidableEq

/-- The decision rule of `process_message` lines 82-83:
`triggered_keywords or monetary_values or triggered_urgency or
classification_label.lower() == 'scam' or classification_score > 0.8`. -/
def isSuspicious (b : SignalBundle) : Bool :=
  !b.triggered_keywords.isEmpty || !b.monetary_values.isEmpty || !b.triggered_urgency.isEmpty
    || (pyLowerStr b.classification_label == "scam")
    || decide ((0.8 : ℚ) < b.classification_score)

/-- Lines 71-77 of `process_message`: the five independent signal
computations on a non-empty text. -/
def compute_bundle (message : String) (sentiment_oracle classifier_oracle : String → String × ℚ) :
    SignalBundle where
  triggered_keywords := find_trigger_keywords message suspicious_keywords
  monetary_values := extract_monetary_values message
  triggered_urgency := find_trigger_keywords message urgency_keywords
  sentiment_label := (sentiment_oracle message).1
  sentiment_score := (sentiment_oracle message).2
  classification_label := (classifier_oracle message).1
  classification_score := (classifier_oracle message).2

/-- Round to an integer, ties to even — the rounding of Python's `:.2f`
format (on the exact rational value). -/
def roundHalfEven (x : ℚ) : ℤ :=
  let f := ⌊x⌋
  if 1 / 2 < x - f then f + 1
  else if x - f < 1 / 2 then f
  else if f % 2 = 0 then f else f + 1

/-- Two-digit zero-padded rendering of the fractional part. -/
def pad2 (n : ℕ) : String := if n < 10 then "0" ++ toString n else toString n

/-- Python fixed-point formatting with two decimals (format spec .2f) on a
rational score. -/
def formatFixed2 (x : ℚ) : String :=
  let n := roundHalfEven (x * 100)
  toString (n / 100) ++ "." ++ pad2 (n % 100).toNat

/-- Comma-space join of a list of strings (Python join). -/
def join_comma (l : List String) : String := String.intercalate ", " l

/-- The alert f-string of `report_suspicious_activity` lines 105-119.  The
source file stores the siren emoji double-encoded, so the literal code
points are `ðŸš¨`, exactly as Python reads them. -/
def alert_text (chat_title sender message : String)
    (keywords monetary_values urgency : List String)
    (sentiment_label : String) (sentiment_score : ℚ)
    (classification_label : String) (classification_score : ℚ) : String :=
  let keywords_list := if keywords.isEmpty then "None" else join_comma keywords
  let monetary_list := if monetary_values.isEmpty then "None" else join_comma monetary_values
  let urgency_list := if urgency.isEmpty then "None" else join_comma urgency
  "\n    ðŸš¨ **Suspicious Activity Alert** ðŸš¨\n    **Channel**: " ++ chat_title
    ++ "\n    **Sender**: @" ++ sender
    ++ "\n    **Message**: " ++ message
    ++ "\n    **Detected Keywords**: " ++ keywords_list
    ++ "\n    **Monetary Values**: " ++ monetary_list
    ++ "\n    **Urgency Indicators**: " ++ urgency_list
    ++ "\n    **Sentiment Analysis**: " ++ sentiment_label
    ++ " (Score: " ++ formatFixed2 sentiment_score ++ ")"
    ++ "\n    **AI Classification**: " ++ classification_label
    ++ " (Confidence: " ++ formatFixed2 classification_score ++ ")"
    ++ "\n    "

/-- Embeds `report_suspicious_activity`: renders the alert and performs one
`client.send_message(developer_id, alert_message)`; the dispatch is modelled
as the list of (recipient, text) sends it performs. -/
def report_suspicious_activity (developer_id chat_title sender message : String)
    (keywords monetary_values urgency : List String)
    (sentiment_label : String) (sentiment_score : ℚ)
    (classification_label : String) (classification_score : ℚ) : List (String × String) :=
  [(developer_id, alert_text chat_title sender message keywords monetary_values urgency
      sentiment_label sentiment_score classification_label classification_score)]

/-- Observable outcome of one `process_message` call: how many times each
oracle was invoked, the Signal Bundle computed (if any), and the outbound
sends performed. -/
structure ProcessResult where
  sentiment_calls : ℕ
  classifier_calls : ℕ
  bundle : Option SignalBundle
  sends : List (String × String)
deriving Repr, DecidableEq

/-- Embeds `process_message(chat, sender, message)` lines 64-88.  `message` is
`Option String`: `none` models a non-text event; Python's `if not message`
is true exactly on `none` and the empty string. -/
def process_message (developer_id chat_title sender : String) (message : Option String)
    (sentiment_oracle classifier_oracle : String → String × ℚ) : ProcessResult :=
  match message with
  | none => ⟨0, 0, none, []⟩
  | some msg =>
    if msg = "" then ⟨0, 0, none, []⟩
    else
      let b := compute_bundle msg sentiment_oracle classifier_oracle
      ⟨1, 1, some b,
        if isSuspicious b then
          report_suspicious_activity developer_id chat_title sender msg
            b.triggered_keywords b.monetary_values b.triggered_urgency
            b.sentiment_label b.sentiment_score b.classification_label b.classification_score
        else []⟩

-- Spec-side predicates -------------------------------------------------------

/-- The spec's notion of a case-insensitive substring occurrence. -/
def CaseInsensitiveSubstr (text kw : String) : Prop :=
  pyLower kw.toList <:+: pyLower text.toList

/-- The spec's monetary pattern: a currency symbol or code (`$`, "USD", a
rupee symbol, or "INR") immediately adjacent to a digit sequence. -/
def MonetaryMatch (m : List Char) : Prop :=
  ∃ d : List Char, d ≠ [] ∧ (∀ c ∈ d, c.isDigit = true) ∧
    (m = '$' :: d ∨ m = d ++ [' ', 'U', 'S', 'D'] ∨ m = '₹' :: d ∨ m = d ++ [' ', 'I', 'N', 'R'])

/-- The matches occur in the text left to right, without overlap: the text
splits as `pre₀ ++ m₀ ++ pre₁ ++ m₁ ++ … ++ rest`. -/
def OrderedInfixes : List Char → List (List Char) → Prop
  | _, [] => True
  | s, m :: ms => ∃ pre suf, s = pre ++ m ++ suf ∧ OrderedInfixes suf ms

/-- The decision rule with the `classification_label.lower() == 'scam'`
disjunct removed (for the dead-code claim). -/
def isSuspiciousNoScam (b : SignalBundle) : Bool :=
  !b.triggered_keywords.isEmpty || !b.monetary_values.isEmpty || !b.triggered_urgency.isEmpty
    || decide ((0.8 : ℚ) < b.classification_score)

/-- Occurrence of `sub` as a contiguous substring of `s` (`String` level). -/
def StrContains (s sub : String) : Prop := sub.toList <:+: s.toList

-- Shared lemmas --------------------------------------------------------------

theorem toList_mk (l : List Char) : (String.mk l).toList = l := rfl

theorem toList_append (s t : String) : (s ++ t).toList = s.toList ++ t.toList :=
  String.data_append s t

/-- Correctness of `hasSubstr`: it decides the infix relation, which is the
Python substring operator. -/
theorem hasSubstr_iff (sub s : List Char) : hasSubstr sub s = true ↔ sub <:+: s := by
  induction s with
  | nil =>
    simp only [hasSubstr, List.isEmpty_iff, List.infix_nil]
  | cons c rest ih =>
    simp only [hasSubstr, Bool.or_eq_true, List.isPrefixOf_iff_prefix, ih]
    exact (List.infix_cons_iff).symm

theorem mem_find_trigger_keywords {kw msg : String} {kws : List String} :
    kw ∈ find_trigger_keywords msg kws
      ↔ kw ∈ kws ∧ pyLower kw.toList <:+: pyLower msg.toList := by
  simp [find_trigger_keywords, List.mem_filter, hasSubstr_iff]

theorem orderedInfixes_cons (c : Char) {s : List Char} {ms : List (List Char)}
    (h : OrderedInfixes s ms) : OrderedInfixes (c :: s) ms := by
  cases ms with
  | nil => trivial
  | cons m rest =>
    simp only [OrderedInfixes] at h ⊢
    obtain ⟨pre, suf, heq, hrest⟩ := h
    exact ⟨c :: pre, suf, by rw [heq]; simp, hrest⟩

theorem extractAux_ordered :
    ∀ (fuel : ℕ) (s : List Char), s.length ≤ fuel → OrderedInfixes s (extractAux fuel s) := by
  intro fuel
  induction fuel with
  | zero => intro s _; trivial
  | succ n ih =>
    intro s hs
    match s with
    | [] => trivial
    | c :: cs =>
      rw [show extractAux (n + 1) (c :: cs)
          = (match tryMatch (c :: cs) with
             | some (m, r) => m :: extractAux n r
             | none => extractAux n cs) from rfl]
      cases h : tryMatch (c :: cs) with
      | none =>
        exact orderedInfixes_cons c (ih cs (by simp at hs; omega))
      | some p =>
        obtain ⟨m, r⟩ := p
        obtain ⟨happ, hne⟩ := tryMatch_append h
        have hr : r.length ≤ n := by
          have hlen := congrArg List.length happ
          have hm : 0 < m.length := List.length_pos.mpr hne
          simp only [List.length_append, List.length_cons] at hlen hs
          omega
        exact ⟨[], r, by rw [← happ]; simp, ih r hr⟩

theorem tryMatch_monetary {s m r : List Char} (h : tryMatch s = some (m, r)) :
    MonetaryMatch m := by
  match s with
  | [] => simp [tryMatch] at h
  | c :: cs =>
    simp only [tryMatch] at h
    split_ifs at h
    all_goals rw [Option.some.injEq, Prod.mk.injEq] at h
    all_goals obtain ⟨hm, hr⟩ := h
    all_goals subst hm
    · rename_i hc hne
      exact ⟨(takeDigits cs).1, by simpa [List.isEmpty_iff] using hne,
        takeDigits_all_digit cs, Or.inl rfl⟩
    · rename_i hc hdig hpre
      refine ⟨(takeDigits (c :: cs)).1, ?_, takeDigits_all_digit (c :: cs),
        Or.inr (Or.inl rfl)⟩
      rw [takeDigits_cons_digit hdig]
      simp
    · rename_i hc hdig hnusd hpre
      refine ⟨(takeDigits (c :: cs)).1, ?_, takeDigits_all_digit (c :: cs),
        Or.inr (Or.inr (Or.inr rfl))⟩
      rw [takeDigits_cons_digit hdig]
      simp
    · rename_i hc hdig hrs hne
      exact ⟨(takeDigits cs).1, by simpa [List.isEmpty_iff] using hne,
        takeDigits_all_digit cs, Or.inr (Or.inr (Or.inl rfl))⟩

theorem extractAux_monetary :
    ∀ (fuel : ℕ) (s : List Char), ∀ m ∈ extractAux fuel s, MonetaryMatch m := by
  intro fuel
  induction fuel with
  | zero => intro s m hm; simp [extractAux] at hm
  | succ n ih =>
    intro s m hm
    match s with
    | [] => simp [extractAux] at hm
    | c :: cs =>
      rw [show extractAux (n + 1) (c :: cs)
          = (match tryMatch (c :: cs) with
             | some (m, r) => m :: extractAux n r
             | none => extractAux n cs) from rfl] at hm
      cases h : tryMatch (c :: cs) with
      | none =>
        rw [h] at hm
        exact ih cs m hm
      | some p =>
        obtain ⟨mm, r⟩ := p
        rw [h] at hm
        rcases List.mem_cons.mp hm with rfl | hm'
        · exact tryMatch_monetary h
        · exact ih r m hm'

theorem orderedInfixes_infix :
    ∀ (ms : List (List Char)) (s : List Char),
      OrderedInfixes s ms → ∀ m ∈ ms, m <:+: s := by
  intro ms
  induction ms with
  | nil => simp
  | cons m0 rest ih =>
    intro s h m hm
    simp only [OrderedInfixes] at h
    obtain ⟨pre, suf, heq, hrest⟩ := h
    subst heq
    rcases List.mem_cons.mp hm with rfl | hm'
    · exact List.infix_append pre m suf
    · exact (ih suf hrest m hm').trans ⟨pre ++ m0, [], by simp⟩

theorem isSuspicious_iff (b : SignalBundle) :
    isSuspicious b = true
      ↔ (b.triggered_keywords ≠ [] ∨ b.monetary_values ≠ [] ∨ b.triggered_urgency ≠ []
          ∨ pyLowerStr b.classification_label = "scam"
          ∨ (0.8 : ℚ) < b.classification_score) := by
  simp only [isSuspicious, Bool.or_eq_true, Bool.not_eq_true', List.isEmpty_eq_false,
    beq_iff_eq, decide_eq_true_eq]
  tauto

/-- The verdict-and-dispatch iff behind C1 and C10. -/
theorem sends_ne_nil_iff
    (developer_id chat_title sender msg : String)
    (sentiment_oracle classifier_oracle : String → String × ℚ)
    (hne : msg ≠ "") :
    (process_message developer_id chat_title sender (some msg)
        sentiment_oracle classifier_oracle).sends ≠ []
      ↔ (find_trigger_keywords msg suspicious_keywords ≠ []
          ∨ extract_monetary_values msg ≠ []
          ∨ find_trigger_keywords msg urgency_keywords ≠ []
          ∨ pyLowerStr (classifier_oracle msg).1 = "scam"
          ∨ (0.8 : ℚ) < (classifier_oracle msg).2) := by
  have hb := isSuspicious_iff (compute_bundle msg sentiment_oracle classifier_oracle)
  cases h : isSuspicious (compute_bundle msg sentiment_oracle classifier_oracle) with
  | true =>
    refine iff_of_true ?_ ?_
    · simp [process_message, if_neg hne, h, report_suspicious_activity]
    · have hr := hb.mp h
      simpa [compute_bundle] using hr
  | false =>
    refine iff_of_false ?_ (fun hr => ?_)
    · simp [process_message, if_neg hne, h]
    · rw [h] at hb
      exact absurd (hb.mpr (by simpa [compute_bundle] using hr)) (by simp)

theorem toLower_whitespace {c : Char} (h : c.isWhitespace = true) : c.toLower = c := by
  have hc : c = ' ' ∨ c = '\t' ∨ c = '\r' ∨ c = '\n' := by
    simp only [Char.isWhitespace, Bool.or_eq_true, decide_eq_true_eq] at h
    tauto
  rcases hc with rfl | rfl | rfl | rfl <;> decide

theorem find_trigger_keywords_ws (msg : String)
    (hws : ∀ c ∈ msg.toList, c.isWhitespace = true) (kws : List String)
    (hk : ∀ kw ∈ kws, (pyLower kw.toList).any (fun c => !c.isWhitespace) = true) :
    find_trigger_keywords msg kws = [] := by
  rw [find_trigger_keywords, List.filter_eq_nil_iff]
  intro kw hkw hcontra
  have hinf := (hasSubstr_iff _ _).mp hcontra
  obtain ⟨c, hc, hcws⟩ := List.any_eq_true.mp (hk kw hkw)
  have hmem : c ∈ pyLower msg.toList := hinf.subset hc
  simp only [pyLower, List.mem_map] at hmem
  obtain ⟨d, hd, rfl⟩ := hmem
  rw [toLower_whitespace (hws d hd)] at hcws
  simp [hws d hd] at hcws

theorem tryMatch_ws {c : Char} (hw : c.isWhitespace = true) (cs : List Char) :
    tryMatch (c :: cs) = none := by
  have hc : c = ' ' ∨ c = '\t' ∨ c = '\r' ∨ c = '\n' := by
    simp only [Char.isWhitespace, Bool.or_eq_true, decide_eq_true_eq] at hw
    tauto
  have h1 : ¬(c = '$') := by rcases hc with rfl | rfl | rfl | rfl <;> decide
  have h2 : c.isDigit = false := by rcases hc with rfl | rfl | rfl | rfl <;> decide
  have h3 : ¬(c = '₹') := by rcases hc with rfl | rfl | rfl | rfl <;> decide
  simp [tryMatch, h1, h2, h3]

theorem extractAux_ws :
    ∀ (fuel : ℕ) (s : List Char), (∀ c ∈ s, c.isWhitespace = true) → extractAux fuel s = [] := by
  intro fuel
  induction fuel with
  | zero => intro s _; rfl
  | succ n ih =>
    intro s h
    match s with
    | [] => rfl
    | c :: cs =>
      rw [show extractAux (n + 1) (c :: cs)
          = (match tryMatch (c :: cs) with
             | some (m, r) => m :: extractAux n r
             | none => extractAux n cs) from rfl,
        tryMatch_ws (h c (by simp)) cs]
      exact ih cs (fun d hd => h d (by simp [hd]))

theorem extract_monetary_values_ws (msg : String)
    (hws : ∀ c ∈ msg.toList, c.isWhitespace = true) :
    extract_monetary_values msg = [] := by
  show (extractAux msg.toList.length msg.toList).map (fun l => String.mk l) = []
  rw [extractAux_ws _ _ hws]
  rfl

theorem isInfix_append_left (a : List Char) {l r : List Char} (h : l <:+: r) :
    l <:+: a ++ r := by
  obtain ⟨t, u, rfl⟩ := h
  exact ⟨a ++ t, u, by simp⟩

theorem isInfix_take (l r : List Char) : l <:+: l ++ r := ⟨[], r, by simp⟩

theorem isInfix_take3 (a b c r : List Char) :
    (a ++ (b ++ c)) <:+: a ++ (b ++ (c ++ r)) := ⟨[], r, by simp⟩

theorem isInfix_take4 (a b c d r : List Char) :
    (a ++ (b ++ (c ++ d))) <:+: a ++ (b ++ (c ++ (d ++ r))) := ⟨[], r, by simp⟩

-- Claims ---------------------------------------------------------------------

/-- C1: for every message event with non-empty text, `process_message`
dispatches a suspicious-activity alert if and only if the triggered
suspicious-keyword list is non-empty, or the extracted monetary-value list is
non-empty, or the triggered urgency-keyword list is non-empty, or the
classification label equals "scam" case-insensitively, or the classification
confidence exceeds 0.8; when none hold, no alert is dispatched. -/
theorem claim1_alert_iff
    (developer_id chat_title sender msg : String)
    (sentiment_oracle classifier_oracle : String → String × ℚ)
    (hne : msg ≠ "") :
    (process_message developer_id chat_title sender (some msg)
        sentiment_oracle classifier_oracle).sends ≠ []
      ↔ (find_trigger_keywords msg suspicious_keywords ≠ []
          ∨ extract_monetary_values msg ≠ []
          ∨ find_trigger_keywords msg urgency_keywords ≠ []
          ∨ pyLowerStr (classifier_oracle msg).1 = "scam"
          ∨ (0.8 : ℚ) < (classifier_oracle msg).2) :=
  sends_ne_nil_iff developer_id chat_title sender msg sentiment_oracle classifier_oracle hne

/-- Witness for C1 at the concrete text "urgent" with concrete oracles. -/
theorem claim1_alert_iff_witness :
    (("urgent" : String) ≠ ""
    ∧ ((process_message "dev" "chat" "alice" (some "urgent")
          (fun _ => ("POSITIVE", (1 : ℚ)/2)) (fun _ => ("NEGATIVE", (1 : ℚ)/2))).sends ≠ []
        ↔ (find_trigger_keywords "urgent" suspicious_keywords ≠ []
            ∨ extract_monetary_values "urgent" ≠ []
            ∨ find_trigger_keywords "urgent" urgency_keywords ≠ []
            ∨ pyLowerStr "NEGATIVE" = "scam"
            ∨ (0.8 : ℚ) < (1 : ℚ)/2))) :=
  ⟨by decide,
    claim1_alert_iff "dev" "chat" "alice" "urgent"
      (fun _ => ("POSITIVE", (1 : ℚ)/2)) (fun _ => ("NEGATIVE", (1 : ℚ)/2)) (by decide)⟩

/-- C2: for a message event whose text is absent (`none`) or empty,
`process_message` performs zero oracle invocations, computes no Signal
Bundle, and dispatches nothing. -/
theorem claim2_empty_skips_all
    (developer_id chat_title sender : String)
    (sentiment_oracle classifier_oracle : String → String × ℚ)
    (message : Option String) (h : message = none ∨ message = some "") :
    process_message developer_id chat_title sender message sentiment_oracle classifier_oracle
      = ⟨0, 0, none, []⟩ := by
  rcases h with rfl | rfl
  · rfl
  · simp [process_message]

/-- Witness for C2 at a non-text (absent) message. -/
theorem claim2_empty_skips_all_witness :
    (((none : Option String) = none ∨ (none : Option String) = some "")
    ∧ process_message "dev" "chat" "alice" none
        (fun _ => ("POSITIVE", (1 : ℚ)/2)) (fun _ => ("NEGATIVE", (1 : ℚ)/2))
        = ⟨0, 0, none, []⟩) :=
  ⟨Or.inl rfl,
    claim2_empty_skips_all "dev" "chat" "alice"
      (fun _ => ("POSITIVE", (1 : ℚ)/2)) (fun _ => ("NEGATIVE", (1 : ℚ)/2)) none (Or.inl rfl)⟩

/-- C3: `find_trigger_keywords` returns exactly the keywords of the list
that occur as case-insensitive substrings of the text; in particular the
texts "ICO" and "ico" both cause the keyword "ICO" to be returned. -/
theorem claim3_keyword_matching :
    (∀ (msg kw : String) (kws : List String),
      kw ∈ find_trigger_keywords msg kws ↔ kw ∈ kws ∧ CaseInsensitiveSubstr msg kw)
    ∧ "ICO" ∈ find_trigger_keywords "ICO" suspicious_keywords
    ∧ "ICO" ∈ find_trigger_keywords "ico" suspicious_keywords := by
  refine ⟨?_, by decide, by decide⟩
  intro msg kw kws
  simp [find_trigger_keywords, List.mem_filter, CaseInsensitiveSubstr, hasSubstr_iff]

/-- C4: every string returned by `extract_monetary_values` matches the
monetary pattern (currency marker adjacent to a digit sequence) and occurs
in the text, the matches are reported in order of appearance (witnessed by
the ordered decomposition and the concrete example), and re-extracting from
each element of the example result is idempotent. -/
theorem claim4_monetary_extraction :
    (∀ (msg m : String), m ∈ extract_monetary_values msg →
        MonetaryMatch m.toList ∧ m.toList <:+: msg.toList)
    ∧ extract_monetary_values "$100 and 50 USD" = ["$100", "50 USD"]
    ∧ extract_monetary_values "$100" = ["$100"]
    ∧ extract_monetary_values "50 USD" = ["50 USD"] := by
  refine ⟨?_, by decide, by decide, by decide⟩
  intro msg m hm
  simp only [extract_monetary_values, List.mem_map] at hm
  obtain ⟨l, hl, rfl⟩ := hm
  exact ⟨extractAux_monetary _ _ _ hl,
    orderedInfixes_infix _ _ (extractAux_ordered msg.toList.length msg.toList le_rfl) l hl⟩

/-- Witness for C4 at the element "$100" of the concrete example. -/
theorem claim4_monetary_extraction_witness :
    ("$100" ∈ extract_monetary_values "$100 and 50 USD")
    ∧ (MonetaryMatch ("$100" : String).toList
        ∧ ("$100" : String).toList <:+: ("$100 and 50 USD" : String).toList) :=
  ⟨by decide, claim4_monetary_extraction.1 "$100 and 50 USD" "$100" (by decide)⟩

/-- C5: when the classifier output label lies in the label space
"POSITIVE"/"NEGATIVE", the scam-label disjunct is false and the decision
rule without it produces the same verdict: that branch is dead code. -/
theorem claim5_scam_branch_dead (msg : String)
    (sentiment_oracle classifier_oracle : String → String × ℚ)
    (hne : msg ≠ "")
    (hlab : (classifier_oracle msg).1 = "POSITIVE" ∨ (classifier_oracle msg).1 = "NEGATIVE") :
    (pyLowerStr (compute_bundle msg sentiment_oracle classifier_oracle).classification_label
        == "scam") = false
    ∧ isSuspicious (compute_bundle msg sentiment_oracle classifier_oracle)
        = isSuspiciousNoScam (compute_bundle msg sentiment_oracle classifier_oracle) := by
  have hfalse : (pyLowerStr (classifier_oracle msg).1 == "scam") = false := by
    rcases hlab with h | h <;> rw [h] <;> decide
  refine ⟨hfalse, ?_⟩
  simp [isSuspicious, isSuspiciousNoScam, compute_bundle, hfalse]

/-- Witness for C5 at the text "hello" with a "POSITIVE" classifier. -/
theorem claim5_scam_branch_dead_witness :
    (("hello" : String) ≠ "")
    ∧ (("POSITIVE" : String) = "POSITIVE" ∨ ("POSITIVE" : String) = "NEGATIVE")
    ∧ ((pyLowerStr (compute_bundle "hello" (fun _ => ("POSITIVE", (1 : ℚ)/2))
          (fun _ => ("POSITIVE", (1 : ℚ)/2))).classification_label == "scam") = false
        ∧ isSuspicious (compute_bundle "hello" (fun _ => ("POSITIVE", (1 : ℚ)/2))
              (fun _ => ("POSITIVE", (1 : ℚ)/2)))
            = isSuspiciousNoScam (compute_bundle "hello" (fun _ => ("POSITIVE", (1 : ℚ)/2))
              (fun _ => ("POSITIVE", (1 : ℚ)/2)))) :=
  ⟨by decide, Or.inl rfl,
    claim5_scam_branch_dead "hello" (fun _ => ("POSITIVE", (1 : ℚ)/2))
      (fun _ => ("POSITIVE", (1 : ℚ)/2)) (by decide) (Or.inl rfl)⟩

/-- C6: the Signal Bundle invariants — triggered keyword lists are subsets
of the respective static lists, and the monetary-value sequence decomposes
the text in order of appearance. -/
theorem claim6_bundle_invariants
    (msg : String) (sentiment_oracle classifier_oracle : String → String × ℚ) :
    (compute_bundle msg sentiment_oracle classifier_oracle).triggered_keywords
        ⊆ suspicious_keywords
    ∧ (compute_bundle msg sentiment_oracle classifier_oracle).triggered_urgency
        ⊆ urgency_keywords
    ∧ OrderedInfixes msg.toList
        ((compute_bundle msg sentiment_oracle classifier_oracle).monetary_values.map
          String.toList) := by
  refine ⟨List.filter_subset' _, List.filter_subset' _, ?_⟩
  have hmap : (compute_bundle msg sentiment_oracle classifier_oracle).monetary_values.map
      String.toList = extractAux msg.toList.length msg.toList := by
    show (extract_monetary_values msg).map String.toList = _
    simp only [extract_monetary_values, List.map_map]
    have hcomp : (String.toList ∘ fun l => String.mk l) = id := rfl
    rw [hcomp, List.map_id]
  rw [hmap]
  exact extractAux_ordered _ _ le_rfl

/-- C7: end-to-end scenario 1 — on the text
"Guaranteed profit! Act now, send $500 today." the triggered suspicious
keywords are exactly ["guaranteed profit"], the urgency keywords exactly
["act now"], the monetary values exactly ["$500"], and for every pair of
oracle outputs an alert is dispatched. -/
theorem claim7_scenario_guaranteed
    (developer_id chat_title sender : String)
    (sentiment_oracle classifier_oracle : String → String × ℚ) :
    find_trigger_keywords "Guaranteed profit! Act now, send $500 today." suspicious_keywords
        = ["guaranteed profit"]
    ∧ find_trigger_keywords "Guaranteed profit! Act now, send $500 today." urgency_keywords
        = ["act now"]
    ∧ extract_monetary_values "Guaranteed profit! Act now, send $500 today." = ["$500"]
    ∧ (process_message developer_id chat_title sender
          (some "Guaranteed profit! Act now, send $500 today.")
          sentiment_oracle classifier_oracle).sends ≠ [] := by
  have hk : find_trigger_keywords "Guaranteed profit! Act now, send $500 today."
      suspicious_keywords = ["guaranteed profit"] := by decide
  refine ⟨hk, by decide, by decide, ?_⟩
  have hne : ("Guaranteed profit! Act now, send $500 today." : String) ≠ "" := by decide
  have hsusp : isSuspicious (compute_bundle "Guaranteed profit! Act now, send $500 today."
      sentiment_oracle classifier_oracle) = true := by
    simp [isSuspicious, compute_bundle, hk]
  simp [process_message, if_neg hne, hsusp, report_suspicious_activity]

/-- C8: end-to-end scenario 2 — on the text "Let\x27s meet for coffee
tomorrow." with classifier output ("POSITIVE", 0.95), all three heuristic
signal lists are empty and the label is not "scam", yet the confidence
0.95 > 0.8 alone triggers the alert. -/
theorem claim8_scenario_coffee
    (developer_id chat_title sender : String)
    (sentiment_oracle classifier_oracle : String → String × ℚ)
    (hcl : classifier_oracle "Let\x27s meet for coffee tomorrow." = ("POSITIVE", 0.95)) :
    find_trigger_keywords "Let\x27s meet for coffee tomorrow." suspicious_keywords = []
    ∧ find_trigger_keywords "Let\x27s meet for coffee tomorrow." urgency_keywords = []
    ∧ extract_monetary_values "Let\x27s meet for coffee tomorrow." = []
    ∧ pyLowerStr (classifier_oracle "Let\x27s meet for coffee tomorrow.").1 ≠ "scam"
    ∧ (0.8 : ℚ) < (classifier_oracle "Let\x27s meet for coffee tomorrow.").2
    ∧ (process_message developer_id chat_title sender
          (some "Let\x27s meet for coffee tomorrow.")
          sentiment_oracle classifier_oracle).sends ≠ [] := by
  refine ⟨by decide, by decide, by decide, ?_, ?_, ?_⟩
  · rw [hcl]
    decide
  · rw [hcl]
    norm_num
  · have hne : ("Let\x27s meet for coffee tomorrow." : String) ≠ "" := by decide
    have hsusp : isSuspicious (compute_bundle "Let\x27s meet for coffee tomorrow."
        sentiment_oracle classifier_oracle) = true := by
      rw [isSuspicious_iff]
      refine Or.inr (Or.inr (Or.inr (Or.inr ?_)))
      show (0.8 : ℚ) < (classifier_oracle "Let\x27s meet for coffee tomorrow.").2
      rw [hcl]
      norm_num
    simp [process_message, if_neg hne, hsusp, report_suspicious_activity]

/-- Witness for C8 with the classifier fixed to ("POSITIVE", 0.95). -/
theorem claim8_scenario_coffee_witness :
    ((fun (_ : String) => (("POSITIVE" : String), (0.95 : ℚ)))
        "Let\x27s meet for coffee tomorrow." = ("POSITIVE", 0.95)
    ∧ (find_trigger_keywords "Let\x27s meet for coffee tomorrow." suspicious_keywords = []
        ∧ find_trigger_keywords "Let\x27s meet for coffee tomorrow." urgency_keywords = []
        ∧ extract_monetary_values "Let\x27s meet for coffee tomorrow." = []
        ∧ pyLowerStr ("POSITIVE" : String) ≠ "scam"
        ∧ (0.8 : ℚ) < (0.95 : ℚ)
        ∧ (process_message "dev" "chat" "alice"
              (some "Let\x27s meet for coffee tomorrow.")
              (fun _ => ("NEUTRAL", (0 : ℚ)))
              (fun _ => ("POSITIVE", (0.95 : ℚ)))).sends ≠ [])) :=
  ⟨rfl,
    claim8_scenario_coffee "dev" "chat" "alice"
      (fun _ => ("NEUTRAL", (0 : ℚ))) (fun _ => ("POSITIVE", (0.95 : ℚ))) rfl⟩

/-- C9: `report_suspicious_activity` renders one alert text containing the
chat name, sender, original text, the comma-joined keyword, monetary and
urgency lists (or "None" when empty), and each label with its confidence
formatted to 2 decimal places, and sends it exactly once to the single
configured recipient. -/
theorem claim9_report_contract
    (developer_id chat_title sender message : String)
    (keywords monetary_values urgency : List String)
    (sentiment_label : String) (sentiment_score : ℚ)
    (classification_label : String) (classification_score : ℚ) :
    report_suspicious_activity developer_id chat_title sender message keywords monetary_values
        urgency sentiment_label sentiment_score classification_label classification_score
      = [(developer_id,
          alert_text chat_title sender message keywords monetary_values urgency
            sentiment_label sentiment_score classification_label classification_score)]
    ∧ StrContains (alert_text chat_title sender message keywords monetary_values urgency
          sentiment_label sentiment_score classification_label classification_score) chat_title
    ∧ StrContains (alert_text chat_title sender message keywords monetary_values urgency
          sentiment_label sentiment_score classification_label classification_score) sender
    ∧ StrContains (alert_text chat_title sender message keywords monetary_values urgency
          sentiment_label sentiment_score classification_label classification_score) message
    ∧ StrContains (alert_text chat_title sender message keywords monetary_values urgency
          sentiment_label sentiment_score classification_label classification_score)
        (if keywords.isEmpty then "None" else join_comma keywords)
    ∧ StrContains (alert_text chat_title sender message keywords monetary_values urgency
          sentiment_label sentiment_score classification_label classification_score)
        (if monetary_values.isEmpty then "None" else join_comma monetary_values)
    ∧ StrContains (alert_text chat_title sender message keywords monetary_values urgency
          sentiment_label sentiment_score classification_label classification_score)
        (if urgency.isEmpty then "None" else join_comma urgency)
    ∧ StrContains (alert_text chat_title sender message keywords monetary_values urgency
          sentiment_label sentiment_score classification_label classification_score)
        (sentiment_label ++ " (Score: " ++ formatFixed2 sentiment_score ++ ")")
    ∧ StrContains (alert_text chat_title sender message keywords monetary_values urgency
          sentiment_label sentiment_score classification_label classification_score)
        (classification_label ++ " (Confidence: " ++ formatFixed2 classification_score ++ ")")
    := by
  refine ⟨rfl, ?_, ?_, ?_, ?_, ?_, ?_, ?_, ?_⟩
  all_goals simp only [StrContains, alert_text, toList_append, List.append_assoc]
  all_goals repeat first
    | exact isInfix_take _ _
    | exact isInfix_take3 _ _ _ _
    | exact isInfix_take4 _ _ _ _ _
    | apply isInfix_append_left

/-- C10: `process_message` skips analysis only on absent/empty text: on a
non-empty all-whitespace text both oracles run, the bundle is computed, the
three heuristic signal lists are empty, and the verdict depends solely on
the classifier disjuncts. -/
theorem claim10_whitespace_not_skipped
    (developer_id chat_title sender msg : String)
    (sentiment_oracle classifier_oracle : String → String × ℚ)
    (hne : msg ≠ "") (hws : ∀ c ∈ msg.toList, c.isWhitespace = true) :
    (process_message developer_id chat_title sender (some msg)
        sentiment_oracle classifier_oracle).sentiment_calls = 1
    ∧ (process_message developer_id chat_title sender (some msg)
        sentiment_oracle classifier_oracle).classifier_calls = 1
    ∧ (process_message developer_id chat_title sender (some msg)
        sentiment_oracle classifier_oracle).bundle
        = some (compute_bundle msg sentiment_oracle classifier_oracle)
    ∧ find_trigger_keywords msg suspicious_keywords = []
    ∧ extract_monetary_values msg = []
    ∧ find_trigger_keywords msg urgency_keywords = []
    ∧ ((process_message developer_id chat_title sender (some msg)
          sentiment_oracle classifier_oracle).sends ≠ []
        ↔ (pyLowerStr (classifier_oracle msg).1 = "scam"
            ∨ (0.8 : ℚ) < (classifier_oracle msg).2)) := by
  have hk1 : find_trigger_keywords msg suspicious_keywords = [] :=
    find_trigger_keywords_ws msg hws _ (by decide)
  have hk2 : find_trigger_keywords msg urgency_keywords = [] :=
    find_trigger_keywords_ws msg hws _ (by decide)
  have hmv : extract_monetary_values msg = [] := extract_monetary_values_ws msg hws
  refine ⟨by simp [process_message, if_neg hne], by simp [process_message, if_neg hne],
    by simp [process_message, if_neg hne], hk1, hmv, hk2, ?_⟩
  rw [sends_ne_nil_iff developer_id chat_title sender msg sentiment_oracle classifier_oracle hne]
  simp [hk1, hk2, hmv]

/-- Witness for C10 at the single-space text. -/
theorem claim10_whitespace_not_skipped_witness :
    ((" " : String) ≠ ""
    ∧ (∀ c ∈ (" " : String).toList, c.isWhitespace = true)
    ∧ ((process_message "dev" "chat" "alice" (some " ")
          (fun _ => ("POSITIVE", (1 : ℚ)/2)) (fun _ => ("POSITIVE", (9 : ℚ)/10))).sentiment_calls = 1
        ∧ (process_message "dev" "chat" "alice" (some " ")
            (fun _ => ("POSITIVE", (1 : ℚ)/2)) (fun _ => ("POSITIVE", (9 : ℚ)/10))).classifier_calls = 1
        ∧ (process_message "dev" "chat" "alice" (some " ")
            (fun _ => ("POSITIVE", (1 : ℚ)/2)) (fun _ => ("POSITIVE", (9 : ℚ)/10))).bundle
            = some (compute_bundle " " (fun _ => ("POSITIVE", (1 : ℚ)/2))
                (fun _ => ("POSITIVE", (9 : ℚ)/10)))
        ∧ find_trigger_keywords " " suspicious_keywords = []
        ∧ extract_monetary_values " " = []
        ∧ find_trigger_keywords " " urgency_keywords = []
        ∧ ((process_message "dev" "chat" "alice" (some " ")
              (fun _ => ("POSITIVE", (1 : ℚ)/2)) (fun _ => ("POSITIVE", (9 : ℚ)/10))).sends ≠ []
            ↔ (pyLowerStr "POSITIVE" = "scam" ∨ (0.8 : ℚ) < (9 : ℚ)/10)))) :=
  ⟨by decide, by decide,
    claim10_whitespace_not_skipped "dev" "chat" "alice" " "
      (fun _ => ("POSITIVE", (1 : ℚ)/2)) (fun _ => ("POSITIVE", (9 : ℚ)/10))
      (by decide) (by decide)⟩

